import Mathlib

/-!
Verification of the pricing-synchronization pipeline of the Scripts repository
(src/General-Script/AZURE-Pricing-Dump/AZURE_Morpheus.py and
src/General-Script/GCP-Pricing-Dump/GCP-Pricing-Final.py), as a shallow
embedding: the pure conversion/classification functions are translated to Lean
functions; the HTTP destination catalog becomes an explicit state; retry loops
and pagination loops become structural recursions over a response oracle, with
the sleeps recorded as a list of delays and the HTTP requests counted.
-/

namespace PricingSync

/-! ### String helpers

Python string operations (`.lower()`, `in`, `.split`) modelled over `List Char`
so that they are executable and kernel-reducible. -/

/-- Python `s.lower()` for ASCII text. -/
def lowerStr (s : String) : String := String.mk (s.data.map Char.toLower)

/-- Boolean check that the first list is a prefix of the second. -/
def isPrefixL : List Char → List Char → Bool
  | [], _ => true
  | _ :: _, [] => false
  | a :: as, b :: bs => a == b && isPrefixL as bs

/-- Boolean check that `pat` occurs contiguously inside the second list. -/
def isInfixL (pat : List Char) : List Char → Bool
  | [] => isPrefixL pat []
  | l@(_ :: cs) => isPrefixL pat l || isInfixL pat cs

/-- Python `pat in s` (substring containment). -/
def strContains (s pat : String) : Bool := isInfixL pat.data s.data

/-- Fuel-driven worker for `splitOnStr`: scans `l`, cutting at each
left-most occurrence of `sep`; `cur` holds the reversed current chunk. -/
def splitOnFuel (sep : List Char) : Nat → List Char → List Char → List (List Char)
  | 0, rest, cur => [cur.reverse ++ rest]
  | _ + 1, [], cur => [cur.reverse]
  | fuel + 1, l@(c :: cs), cur =>
    if isPrefixL sep l then cur.reverse :: splitOnFuel sep fuel (l.drop sep.length) []
    else splitOnFuel sep fuel cs (c :: cur)

/-- Python `s.split(sep)` for a non-empty separator. -/
def splitOnStr (s sep : String) : List String :=
  (splitOnFuel sep.data (s.data.length + 1) s.data []).map String.mk

/-! ### Azure raw items and the Morpheus price record

`AzureItem` models the raw Azure retail-prices API record as read by
`PricingConverter.convert_azure_to_morpheus_price`; the field defaults are the
`dict.get` defaults used there. -/

structure AzureItem where
  serviceName : String := ""
  meterName : String := ""
  productName : String := ""
  location : String := ""
  armRegionName : String := ""
  retailPrice : ℚ := 0
  meterId : String := ""
  unitOfMeasure : String := "1 Hour"
deriving DecidableEq

/-- The volume-type dictionary built by `PricingConverter._get_volume_type`
(the `id` key is always `None` there and is omitted). -/
structure VolumeType where
  code : String
  name : String
deriving DecidableEq

/-- The `price` payload built by `PricingConverter.convert_azure_to_morpheus_price`
(constant bookkeeping fields such as `markup`, `software`, `datastore` are
elided; every field inspected by the claims is kept). -/
structure MorpheusPrice where
  name : String
  code : String
  priceType : String
  priceUnit : String
  additionalPriceUnit : Option String
  price : ℚ
  cost : ℚ
  currency : String
  incurCharges : String
  platform : Option String
  volumeType : Option VolumeType
deriving DecidableEq

/-- `PricingConverter._get_price_type` of AZURE_Morpheus.py. -/
def get_price_type (service_name meter_name product_name : String) : String :=
  let service_lower := lowerStr service_name
  let meter_lower := lowerStr meter_name
  let product_lower := lowerStr product_name
  if strContains product_lower "windows" then "platform"
  else if strContains service_lower "storage" || strContains service_lower "disk" ||
      strContains service_lower "blob" || strContains service_lower "file" then "storage"
  else if service_name = "Virtual Machines" then
    (if strContains meter_lower "ram" || strContains meter_lower "memory" then "memory"
     else if strContains meter_lower "core" || strContains meter_lower "cpu" ||
         strContains meter_lower "vcpu" then "cores"
     else "compute")
  else if strContains service_lower "sql" || strContains service_lower "database" ||
      strContains service_lower "mysql" || strContains service_lower "postgresql" then "compute"
  else "compute"

/-- `PricingConverter._get_platform` of AZURE_Morpheus.py. -/
def get_platform (product_name meter_name : String) : Option String :=
  let combined := lowerStr (product_name ++ " " ++ meter_name)
  if strContains combined "windows" then some "windows"
  else if strContains combined "linux" then some "linux"
  else none

/-- `PricingConverter._get_price_unit` of AZURE_Morpheus.py. -/
def get_price_unit (unit_of_measure price_type : String) : String :=
  let unit_lower := lowerStr unit_of_measure
  if price_type = "storage" then
    (if strContains unit_lower "month" then "month" else "hour")
  else "hour"

/-- `PricingConverter._get_volume_type` of AZURE_Morpheus.py: its Python
signature is `Optional[Dict]`, and every branch returns a dictionary. -/
def get_volume_type (pfx meter_name product_name : String) : Option VolumeType :=
  let combined := lowerStr (meter_name ++ " " ++ product_name)
  if strContains combined "premium" || strContains combined "ssd" then
    some { code := lowerStr pfx ++ "-premium-ssd", name := "Premium SSD" }
  else if strContains combined "standard" || strContains combined "hdd" then
    some { code := lowerStr pfx ++ "-standard-hdd", name := "Standard HDD" }
  else
    some { code := lowerStr pfx ++ "-standard", name := "Standard" }

/-- `PricingConverter.convert_azure_to_morpheus_price` of AZURE_Morpheus.py:
the normalizer from a raw Azure item to a Morpheus price payload. -/
def convert_azure_to_morpheus_price (pfx : String) (it : AzureItem) : MorpheusPrice :=
  let price_type0 := get_price_type it.serviceName it.meterName it.productName
  let platform := get_platform it.productName it.meterName
  let price_type :=
    if platform = some "windows" ∧ price_type0 = "compute" then "platform" else price_type0
  let price_unit := get_price_unit it.unitOfMeasure price_type
  { name := pfx ++ " - " ++ it.productName ++ " - " ++ it.meterName ++ " - " ++ it.location
    code := lowerStr pfx ++ ".azure." ++ it.meterId ++ "." ++ it.armRegionName
    priceType := price_type
    priceUnit := price_unit
    additionalPriceUnit := if price_type = "storage" then some "GB" else none
    price := it.retailPrice
    cost := it.retailPrice
    currency := "USD"
    incurCharges := if price_type = "storage" then "always" else "running"
    platform := platform
    volumeType :=
      if price_type = "storage" then get_volume_type pfx it.meterName it.productName else none }

/-! ### GCP raw SKUs and price creation (GCP-Pricing-Final.py) -/

structure GCPCategory where
  resourceFamily : String := ""
  resourceGroup : String := ""
  usageType : String := ""
deriving DecidableEq

structure UnitPrice where
  units : ℚ := 0
  nanos : ℚ := 0
deriving DecidableEq

structure PricingExpression where
  usageUnit : String := ""
  tieredRates : List UnitPrice := []
deriving DecidableEq

structure GCPSku where
  skuId : String := ""
  description : String := ""
  category : GCPCategory := {}
  serviceRegions : List String := []
  pricingExpressions : List PricingExpression := []
deriving DecidableEq

/-- The GCP price payload built by `create_price_data` of GCP-Pricing-Final.py
(the `volumeType` key is present only for the Storage resource family). -/
structure GcpPrice where
  name : String
  code : String
  priceType : String
  priceUnit : String
  price : ℚ
  cost : ℚ
  currency : String
  incurCharges : String
  volumeType : Option Nat
deriving DecidableEq

/-- `_get_price_type` of GCP-Pricing-Final.py: dictionary lookups with
defaults, keyed on the SKU's resource family and resource group. -/
def gcp_get_price_type (resource_group : String) (resource_family : String) : String :=
  if resource_family = "Compute" then
    (if resource_group = "CPU" then "cores"
     else if resource_group = "RAM" then "memory"
     else if resource_group = "GPU" then "gpu"
     else if resource_group = "TPU" then "compute"
     else if resource_group = "N1Standard" then "compute"
     else "compute")
  else if resource_family = "Storage" then
    (if resource_group = "PDStandard" then "storage"
     else if resource_group = "SSD" then "storage"
     else if resource_group = "Storage" then "storage"
     else "storage")
  else if resource_family = "Network" then
    (if resource_group = "InterregionEgress" then "compute"
     else if resource_group = "VPNInternetIngress" then "compute"
     else if resource_group = "VPNInterregionEgress" then "compute"
     else if resource_group = "VPNInterregionIngress" then "compute"
     else "compute")
  else "compute"

/-- `_get_volume_type` of GCP-Pricing-Final.py. -/
def gcp_get_volume_type (resource_group : String) : Nat :=
  if resource_group = "PDStandard" then 1
  else if resource_group = "SSD" then 2
  else if resource_group = "Storage" then 1
  else 1

/-- `create_price_data` of GCP-Pricing-Final.py: note that `priceUnit` is the
constant string `hour` and the unit-of-measure text of the SKU is never read. -/
def create_price_data (sku : GCPSku) (region : String) (pfx : String) : GcpPrice :=
  let price_expression := (sku.pricingExpressions.headD {})
  let base_price :=
    match price_expression.tieredRates with
    | [] => (0 : ℚ)
    | rate :: _ => rate.units + rate.nanos / 1000000000
  let resource_family := sku.category.resourceFamily
  let resource_group := sku.category.resourceGroup
  { name := pfx ++ " - " ++ sku.description
    code := lowerStr pfx ++ ".google." ++ sku.skuId ++ "." ++ region
    priceType := gcp_get_price_type resource_group resource_family
    priceUnit := "hour"
    price := base_price
    cost := base_price
    currency := "USD"
    incurCharges := "running"
    volumeType :=
      if resource_family = "Storage" then some (gcp_get_volume_type resource_group) else none }

/-! ### Bounded retry (`MorpheusClient._make_request` in both scripts)

The network is an oracle `respond : Nat → Bool` telling whether the attempt
with the given 0-based index succeeds.  The result is (success, number of
attempts issued, the list of sleep durations in order). -/

/-- Worker for the Azure `_make_request`: `remaining` counts the attempts still
allowed (`MAX_RETRIES - attempt`); on a non-final failure it sleeps
`REQUEST_DELAY * (attempt + 1)` — linear backoff. -/
def azureRequestAux (respond : Nat → Bool) (base_delay : ℚ) :
    Nat → Nat → Bool × Nat × List ℚ
  | 0, _ => (false, 0, [])
  | remaining + 1, attempt =>
    if respond attempt then (true, 1, [])
    else if remaining = 0 then (false, 1, [])
    else
      let r := azureRequestAux respond base_delay remaining (attempt + 1)
      (r.1, r.2.1 + 1, base_delay * ((attempt : ℚ) + 1) :: r.2.2)

/-- `MorpheusClient._make_request` of AZURE_Morpheus.py. -/
def make_request_azure (respond : Nat → Bool) (max_retries : Nat) (base_delay : ℚ) :
    Bool × Nat × List ℚ :=
  azureRequestAux respond base_delay max_retries 0

/-- Worker for the GCP `_make_request`: on a non-final failure it sleeps the
constant `retry_delay`. -/
def gcpRequestAux (respond : Nat → Bool) (retry_delay : ℚ) :
    Nat → Nat → Bool × Nat × List ℚ
  | 0, _ => (false, 0, [])
  | remaining + 1, attempt =>
    if respond attempt then (true, 1, [])
    else if remaining = 0 then (false, 1, [])
    else
      let r := gcpRequestAux respond retry_delay remaining (attempt + 1)
      (r.1, r.2.1 + 1, retry_delay :: r.2.2)

/-- `MorpheusClient._make_request` of GCP-Pricing-Final.py. -/
def make_request_gcp (respond : Nat → Bool) (max_retries : Nat) (retry_delay : ℚ) :
    Bool × Nat × List ℚ :=
  gcpRequestAux respond retry_delay max_retries 0

/-! ### Paginated fetch

A paginated source is an oracle `pages : Nat → PageResult α`: consulting the
source at index `n` models issuing the `n`-th page request (the first request
carries the query parameters, every later one the cursor of the previous
response).  `ok items next` is a successful response with its items and the
presence of a next-page cursor; `err` is a request that raises. -/

inductive PageResult (α : Type) where
  | ok (items : List α) (next : Bool)
  | err
deriving DecidableEq

/-- Worker for `AzurePricingClient._fetch_paginated_data`: the loop
`while next_url and page_count < max_pages`.  On a request error the loop
breaks and the items already accumulated are returned.  Also returns the
number of page requests issued. -/
def fetchAux (pages : Nat → PageResult α) : Nat → List α → List α × Nat
  | 0, acc => (acc, 0)
  | fuel + 1, acc =>
    match pages 0 with
    | .err => (acc, 1)
    | .ok its next =>
      if next then
        let r := fetchAux (fun n => pages (n + 1)) fuel (acc ++ its)
        (r.1, r.2 + 1)
      else (acc ++ its, 1)

/-- `AzurePricingClient._fetch_paginated_data` of AZURE_Morpheus.py. -/
def fetch_paginated_data (pages : Nat → PageResult α) (max_pages : Nat) : List α × Nat :=
  fetchAux pages max_pages []

/-- `GCPPricingClient._is_valid_sku` of GCP-Pricing-Final.py. -/
def is_valid_sku (sku : GCPSku) (region : String) : Bool :=
  sku.serviceRegions.contains region

/-- Worker for `GCPPricingClient.get_all_skus`: the loop
`while page_count <= max_pages` starting at page 1.  A request error raises,
discarding everything accumulated; otherwise the page's items are filtered by
`valid` and accumulated. -/
def gcpFetchAux (pages : Nat → PageResult α) (valid : α → Bool) :
    Nat → List α → Except Unit (List α)
  | 0, acc => .ok acc
  | fuel + 1, acc =>
    match pages 0 with
    | .err => .error ()
    | .ok its next =>
      if next then gcpFetchAux (fun n => pages (n + 1)) valid fuel (acc ++ its.filter valid)
      else .ok (acc ++ its.filter valid)

/-- `GCPPricingClient.get_all_skus` of GCP-Pricing-Final.py. -/
def get_all_skus (pages : Nat → PageResult GCPSku) (region : String) (max_pages : Nat) :
    Except Unit (List GCPSku) :=
  gcpFetchAux pages (fun sku => is_valid_sku sku region) max_pages []

/-- A finite source whose listed pages all succeed, each announcing a further
cursor, and whose next request after the list raises. -/
def listSource (good : List (List α)) : Nat → PageResult α :=
  fun n =>
    match good[n]? with
    | some its => .ok its true
    | none => .err

/-- A finite well-terminated source: page `n` succeeds with the `n`-th item
list and carries a cursor exactly when a further page exists. -/
def listSourceEnd (good : List (List α)) : Nat → PageResult α :=
  fun n =>
    match good[n]? with
    | some its => .ok its (decide (n + 1 < good.length))
    | none => .err

/-! ### The destination catalog and `create_or_update_price`

The Morpheus `/api/prices` store is modelled as a list of records (in creation
order) plus a fresh-id counter; the search endpoint `GET /api/prices?code=…`
returns the first record with that exact code, `POST` appends a record with a
new id, and `PUT /api/prices/{id}` replaces the content of the record with
that id. -/

structure CatRecord where
  code : String
  id : Nat
  data : MorpheusPrice
deriving DecidableEq

structure Catalog where
  records : List CatRecord
  next_id : Nat
deriving DecidableEq

inductive UpsertOutcome where
  | created
  | updated
deriving DecidableEq

/-- `MorpheusClient.search_price_by_code` of AZURE_Morpheus.py: exact lookup
by code, first match. -/
def search_price_by_code (cat : Catalog) (code : String) : Option CatRecord :=
  cat.records.find? (fun r => r.code == code)

/-- `MorpheusClient.create_or_update_price` of AZURE_Morpheus.py: look up by
the record's code; update in place (preserving the found id) when present,
create (capturing the fresh id) when absent.  Returns the new catalog, the
outcome and the destination id. -/
def create_or_update_price (cat : Catalog) (d : MorpheusPrice) :
    Catalog × UpsertOutcome × Nat :=
  match search_price_by_code cat d.code with
  | some r =>
    ({ records := cat.records.map (fun s => if s.id == r.id then ⟨d.code, s.id, d⟩ else s)
       next_id := cat.next_id }, UpsertOutcome.updated, r.id)
  | none =>
    ({ records := cat.records ++ [⟨d.code, cat.next_id, d⟩]
       next_id := cat.next_id + 1 }, UpsertOutcome.created, cat.next_id)

/-- Number of destination records carrying the given code. -/
def countCode (cat : Catalog) (code : String) : Nat :=
  cat.records.countP (fun r => r.code == code)

/-! ### Grouping prices into price sets (`group_prices_for_price_sets`) -/

/-- A converted price together with the destination id recorded after
reconciliation (`price_data['price_id']`); `none` models a missing key. -/
structure PricedRec where
  price : MorpheusPrice
  price_id : Option Nat
deriving DecidableEq

/-- The group key computed by `group_prices_for_price_sets`: split the price
name on `" - "`; with at least 4 parts the key is `parts[1] + "_" + parts[-1]`,
otherwise the record is skipped (`none`). -/
def groupKeyOf (name : String) : Option String :=
  let name_parts := splitOnStr name " - "
  if 4 ≤ name_parts.length then
    some (name_parts[1]?.getD "" ++ "_" ++ (name_parts.getLast?).getD "")
  else none

/-- Append id `i` to the group `k` of an insertion-ordered association list,
creating the group at the end when absent — Python dict-of-list accumulation. -/
def insertGroup (groups : List (String × List Nat)) (k : String) (i : Nat) :
    List (String × List Nat) :=
  match groups with
  | [] => [(k, [i])]
  | (k₀, l) :: rest =>
    if k₀ = k then (k₀, l ++ [i]) :: rest else (k₀, l) :: insertGroup rest k i

/-- The loop body of `group_prices_for_price_sets`: a record with a falsy
`price_id` (`None` or `0`) is skipped (`if not price_id: continue`), as is a
record whose name has fewer than 4 parts; otherwise its id is appended to the
group of its key. -/
def groupStep (gs : List (String × List Nat)) (r : PricedRec) :
    List (String × List Nat) :=
  match r.price_id, groupKeyOf r.price.name with
  | some (i + 1), some k => insertGroup gs k (i + 1)
  | _, _ => gs

/-- `PricingConverter.group_prices_for_price_sets` of AZURE_Morpheus.py:
the surviving records are grouped by `groupKeyOf` in insertion order. -/
def group_prices_for_price_sets (rs : List PricedRec) : List (String × List Nat) :=
  rs.foldl groupStep []

/-- The destination ids of the successfully reconciled records with group key
`k`, in list order: the reference value for the grouping theorems. -/
def successIds (k : String) (rs : List PricedRec) : List Nat :=
  rs.filterMap (fun r =>
    match r.price_id, groupKeyOf r.price.name with
    | some (i + 1), some k₀ => if k₀ = k then some (i + 1) else none
    | _, _ => none)

/-- Members of the group named `k`, when that group exists. -/
def lookupGroup (k : String) (gs : List (String × List Nat)) : Option (List Nat) :=
  (gs.find? (fun g => g.1 == k)).map (fun g => g.2)

/-- Total number of occurrences of the id `i` across all groups. -/
def countAll (i : Nat) (gs : List (String × List Nat)) : Nat :=
  (gs.map (fun g => g.2.count i)).sum

/-- Number of records that survive the grouping filter and carry the id `i`. -/
def countSuccess (i : Nat) (rs : List PricedRec) : Nat :=
  rs.countP (fun r =>
    match r.price_id, groupKeyOf r.price.name with
    | some (j + 1), some _ => j + 1 == i
    | _, _ => false)

/-! ### The orchestrator `sync_azure_pricing`

The remote effects are oracles: `upsert i` is the destination id returned by
`create_or_update_price` for the `i`-th item (`none` models a falsy return),
and `create_set k` tells whether the price-set creation for group `k`
succeeds.  The summary mirrors the counters logged at run end, and `ok` is the
function's return value `len(successful_prices) > 0` (after the early
`return False` when nothing was fetched). -/

structure SyncSummary where
  items_fetched : Nat
  prices_succeeded : Nat
  prices_failed : Nat
  price_set_success : Nat
  price_set_failed : Nat
  ok : Bool
deriving DecidableEq

/-- `sync_azure_pricing` of AZURE_Morpheus.py. -/
def sync_azure_pricing (pfx : String) (items : List AzureItem)
    (upsert : Nat → Option Nat) (create_set : String → Bool) : SyncSummary :=
  if items.isEmpty then
    { items_fetched := 0, prices_succeeded := 0, prices_failed := 0
      price_set_success := 0, price_set_failed := 0, ok := false }
  else
    let results := items.enum.map
      (fun p => (convert_azure_to_morpheus_price pfx p.2, upsert p.1))
    let successful := results.filterMap (fun p =>
      match p.2 with
      | some (i + 1) => some (⟨p.1, some (i + 1)⟩ : PricedRec)
      | _ => none)
    let failed_count := results.length - successful.length
    let groups :=
      if successful.isEmpty then [] else group_prices_for_price_sets successful
    let submitted := groups.filter (fun g => 0 < g.2.length)
    let set_success := (submitted.filter (fun g => create_set g.1)).length
    let set_failed := (submitted.filter (fun g => ¬ create_set g.1)).length
    { items_fetched := items.length
      prices_succeeded := successful.length
      prices_failed := failed_count
      price_set_success := set_success
      price_set_failed := set_failed
      ok := decide (0 < successful.length) }

/-! ## Helper lemmas -/

lemma get_volume_type_isSome (pfx m p : String) :
    (get_volume_type pfx m p).isSome = true := by
  unfold get_volume_type
  dsimp only
  split_ifs <;> rfl

lemma get_price_type_cases (s m p : String) :
    get_price_type s m p = "platform" ∨ get_price_type s m p = "storage" ∨
      get_price_type s m p = "memory" ∨ get_price_type s m p = "cores" ∨
      get_price_type s m p = "compute" := by
  unfold get_price_type
  dsimp only
  split_ifs <;> simp

lemma convert_priceType_cases (pfx : String) (it : AzureItem) :
    (convert_azure_to_morpheus_price pfx it).priceType = "platform" ∨
      (convert_azure_to_morpheus_price pfx it).priceType = "storage" ∨
      (convert_azure_to_morpheus_price pfx it).priceType = "memory" ∨
      (convert_azure_to_morpheus_price pfx it).priceType = "cores" ∨
      (convert_azure_to_morpheus_price pfx it).priceType = "compute" := by
  unfold convert_azure_to_morpheus_price
  dsimp only
  split_ifs with h
  · simp
  · exact get_price_type_cases _ _ _

lemma gcp_get_price_type_cases (rg rf : String) :
    gcp_get_price_type rg rf = "cores" ∨ gcp_get_price_type rg rf = "memory" ∨
      gcp_get_price_type rg rf = "gpu" ∨ gcp_get_price_type rg rf = "compute" ∨
      gcp_get_price_type rg rf = "storage" := by
  unfold gcp_get_price_type
  split_ifs <;> simp

lemma get_price_unit_eq (uom pt : String) :
    get_price_unit uom pt =
      (if pt = "storage" ∧ strContains (lowerStr uom) "month" = true
       then "month" else "hour") := by
  rw [get_price_unit]
  by_cases h1 : pt = "storage"
  · by_cases h2 : strContains (lowerStr uom) "month" = true
    · simp [h1, h2]
    · simp [h1, h2]
  · simp [h1]

lemma azureRequestAux_allFail (respond : Nat → Bool) (base_delay : ℚ)
    (hfail : ∀ n, respond n = false) :
    ∀ remaining attempt, 1 ≤ remaining →
      azureRequestAux respond base_delay remaining attempt =
        (false, remaining,
          (List.range' (attempt + 1) (remaining - 1)).map
            (fun n => base_delay * ((n : Nat) : ℚ))) := by
  intro remaining
  induction remaining with
  | zero => omega
  | succ r ih =>
    intro attempt _
    rw [azureRequestAux]
    rw [hfail attempt]
    by_cases hr : r = 0
    · subst hr
      simp
    · rw [if_neg (by decide), if_neg hr]
      rw [ih (attempt + 1) (by omega)]
      have hr2 : r - 1 + 1 = r := by omega
      dsimp only
      have hsplit : List.range' (attempt + 1) r = (attempt + 1) :: List.range' (attempt + 1 + 1) (r - 1) := by
        conv_lhs => rw [← hr2]
        rw [List.range'_succ]
      rw [show r + 1 - 1 = r by omega, hsplit]
      simp only [List.map_cons, Prod.mk.injEq, List.cons.injEq, true_and]
      refine ⟨?_, trivial⟩
      push_cast
      ring

lemma gcpRequestAux_allFail (respond : Nat → Bool) (retry_delay : ℚ)
    (hfail : ∀ n, respond n = false) :
    ∀ remaining attempt, 1 ≤ remaining →
      gcpRequestAux respond retry_delay remaining attempt =
        (false, remaining, List.replicate (remaining - 1) retry_delay) := by
  intro remaining
  induction remaining with
  | zero => omega
  | succ r ih =>
    intro attempt _
    rw [gcpRequestAux]
    rw [hfail attempt]
    by_cases hr : r = 0
    · subst hr
      simp
    · rw [if_neg (by decide), if_neg hr]
      rw [ih (attempt + 1) (by omega)]
      have hr2 : r - 1 + 1 = r := by omega
      dsimp only
      rw [show r + 1 - 1 = r by omega,
        show List.replicate r retry_delay = retry_delay :: List.replicate (r - 1) retry_delay by
          rw [← List.replicate_succ, hr2]]

lemma listSource_shift (g : List α) (gs : List (List α)) :
    (fun n => listSource (g :: gs) (n + 1)) = listSource gs := by
  funext n
  simp [listSource]

lemma listSourceEnd_shift (g : List α) (gs : List (List α)) :
    (fun n => listSourceEnd (g :: gs) (n + 1)) = listSourceEnd gs := by
  funext n
  simp only [listSourceEnd, List.length_cons, List.getElem?_cons_succ]
  cases hg : gs[n]? with
  | none => simp
  | some l => simp [Nat.succ_lt_succ_iff]

lemma fetchAux_listSource (good : List (List α)) :
    ∀ fuel acc, good.length < fuel →
      fetchAux (listSource good) fuel acc = (acc ++ good.flatten, good.length + 1) := by
  induction good with
  | nil =>
    intro fuel acc h
    cases fuel with
    | zero => omega
    | succ f =>
      have h0 : listSource ([] : List (List α)) 0 = PageResult.err := rfl
      rw [fetchAux, h0]
      simp
  | cons g gs ih =>
    intro fuel acc h
    cases fuel with
    | zero => simp at h
    | succ f =>
      have h0 : listSource (g :: gs) 0 = PageResult.ok g true := by
        simp [listSource]
      rw [fetchAux, h0]
      simp only [if_true]
      rw [listSource_shift, ih f (acc ++ g) (by simpa using h)]
      simp

lemma gcpFetchAux_listSource_error (good : List (List α)) (valid : α → Bool) :
    ∀ fuel acc, good.length < fuel →
      gcpFetchAux (listSource good) valid fuel acc = Except.error () := by
  induction good with
  | nil =>
    intro fuel acc h
    cases fuel with
    | zero => omega
    | succ f =>
      have h0 : listSource ([] : List (List α)) 0 = PageResult.err := rfl
      rw [gcpFetchAux, h0]
  | cons g gs ih =>
    intro fuel acc h
    cases fuel with
    | zero => simp at h
    | succ f =>
      have h0 : listSource (g :: gs) 0 = PageResult.ok g true := by
        simp [listSource]
      rw [gcpFetchAux, h0]
      simp only [if_true]
      rw [listSource_shift, ih _ _ (by simpa using h)]

lemma fetchAux_listSourceEnd (good : List (List α)) :
    ∀ fuel acc, good ≠ [] → good.length ≤ fuel →
      fetchAux (listSourceEnd good) fuel acc = (acc ++ good.flatten, good.length) := by
  induction good with
  | nil => intro _ _ hne _; exact absurd rfl hne
  | cons g gs ih =>
    intro fuel acc _ h
    cases fuel with
    | zero => simp at h
    | succ f =>
      cases hgs : gs with
      | nil =>
        subst hgs
        have h0 : listSourceEnd [g] 0 = PageResult.ok g false := by
          simp [listSourceEnd]
        rw [fetchAux, h0]
        simp
      | cons g₂ gs₂ =>
        subst hgs
        have h0 : listSourceEnd (g :: g₂ :: gs₂) 0 = PageResult.ok g true := by
          simp [listSourceEnd]
        rw [fetchAux, h0]
        simp only [if_true]
        rw [listSourceEnd_shift, ih f (acc ++ g) (by simp) (by simpa using h)]
        simp

lemma gcpFetchAux_listSourceEnd (good : List (List α)) (valid : α → Bool) :
    ∀ fuel acc, good ≠ [] → good.length ≤ fuel →
      gcpFetchAux (listSourceEnd good) valid fuel acc =
        Except.ok (acc ++ (good.map (fun p => p.filter valid)).flatten) := by
  induction good with
  | nil => intro _ _ hne _; exact absurd rfl hne
  | cons g gs ih =>
    intro fuel acc _ h
    cases fuel with
    | zero => simp at h
    | succ f =>
      cases hgs : gs with
      | nil =>
        subst hgs
        have h0 : listSourceEnd [g] 0 = PageResult.ok g false := by
          simp [listSourceEnd]
        rw [gcpFetchAux, h0]
        simp
      | cons g₂ gs₂ =>
        subst hgs
        have h0 : listSourceEnd (g :: g₂ :: gs₂) 0 = PageResult.ok g true := by
          simp [listSourceEnd]
        rw [gcpFetchAux, h0]
        simp only [if_true]
        rw [listSourceEnd_shift, ih f (acc ++ g.filter valid) (by simp) (by simpa using h)]
        simp

lemma fetchAux_length_le (ps : Nat) :
    ∀ (fuel : Nat) (pages : Nat → PageResult α) (acc : List α),
      (∀ n its next, pages n = PageResult.ok its next → its.length ≤ ps) →
      (fetchAux pages fuel acc).1.length ≤ acc.length + fuel * ps := by
  intro fuel
  induction fuel with
  | zero =>
    intro pages acc _
    simp [fetchAux]
  | succ f ih =>
    intro pages acc hp
    rw [fetchAux]
    cases hpg : pages 0 with
    | err => simp
    | ok its next =>
      have hits : its.length ≤ ps := hp 0 its next hpg
      cases next with
      | false =>
        simp only [Bool.false_eq_true, if_false, List.length_append]
        have : ps ≤ (f + 1) * ps := Nat.le_mul_of_pos_left ps (by omega)
        omega
      | true =>
        simp only [if_true]
        have hrec := ih (fun n => pages (n + 1)) (acc ++ its)
          (fun n i nx hh => hp (n + 1) i nx hh)
        simp only [List.length_append] at hrec
        have : (f + 1) * ps = f * ps + ps := by ring
        omega

lemma lookupGroup_insertGroup_self (gs : List (String × List Nat)) (k : String) (i : Nat) :
    lookupGroup k (insertGroup gs k i) = some ((lookupGroup k gs).getD [] ++ [i]) := by
  induction gs with
  | nil => simp [insertGroup, lookupGroup]
  | cons g rest ih =>
    obtain ⟨k₀, l⟩ := g
    by_cases hk : k₀ = k
    · subst hk
      simp [insertGroup, lookupGroup]
    · simp only [insertGroup, if_neg hk]
      have hbeq : (k₀ == k) = false := beq_eq_false_iff_ne.mpr hk
      simp only [lookupGroup, List.find?_cons, hbeq] at ih ⊢
      exact ih

lemma lookupGroup_insertGroup_other (gs : List (String × List Nat)) (k k₁ : String)
    (i : Nat) (hne : k₁ ≠ k) :
    lookupGroup k₁ (insertGroup gs k i) = lookupGroup k₁ gs := by
  induction gs with
  | nil => simp [insertGroup, lookupGroup, Ne.symm hne]
  | cons g rest ih =>
    obtain ⟨k₀, l⟩ := g
    by_cases hk : k₀ = k
    · subst hk
      have hbeq : (k₀ == k₁) = false := beq_eq_false_iff_ne.mpr (Ne.symm hne)
      simp [insertGroup, lookupGroup, List.find?_cons, hbeq]
    · simp only [insertGroup, if_neg hk]
      by_cases hk1 : k₀ = k₁
      · subst hk1
        simp [lookupGroup, List.find?_cons]
      · have hbeq : (k₀ == k₁) = false := beq_eq_false_iff_ne.mpr hk1
        simp only [lookupGroup, List.find?_cons, hbeq] at ih ⊢
        exact ih

lemma insertGroup_keys (gs : List (String × List Nat)) (k : String) (i : Nat) :
    (insertGroup gs k i).map Prod.fst =
      (if (gs.map Prod.fst).contains k then gs.map Prod.fst
       else gs.map Prod.fst ++ [k]) := by
  induction gs with
  | nil => simp [insertGroup]
  | cons g rest ih =>
    obtain ⟨k₀, l⟩ := g
    by_cases hk : k₀ = k
    · subst hk
      simp [insertGroup]
    · have hbeq2 : (k == k₀) = false := beq_eq_false_iff_ne.mpr (Ne.symm hk)
      simp only [insertGroup, if_neg hk, List.map_cons, List.contains_cons, hbeq2,
        Bool.false_or]
      rw [ih]
      by_cases hc : (rest.map Prod.fst).contains k = true
      · simp only [if_pos hc]
      · simp only [if_neg hc, List.cons_append]

lemma insertGroup_nodup (gs : List (String × List Nat)) (k : String) (i : Nat)
    (h : (gs.map Prod.fst).Nodup) : ((insertGroup gs k i).map Prod.fst).Nodup := by
  rw [insertGroup_keys]
  by_cases hc : (gs.map Prod.fst).contains k = true
  · rw [if_pos hc]
    exact h
  · rw [if_neg hc]
    rw [List.nodup_append]
    refine ⟨h, by simp, ?_⟩
    intro a ha hb
    simp only [List.mem_singleton] at hb
    subst hb
    exact hc (List.elem_eq_true_of_mem ha)

lemma insertGroup_nonempty (gs : List (String × List Nat)) (k : String) (i : Nat)
    (h : ∀ g ∈ gs, g.2 ≠ []) : ∀ g ∈ insertGroup gs k i, g.2 ≠ [] := by
  induction gs with
  | nil =>
    intro g hg
    simp only [insertGroup, List.mem_singleton] at hg
    subst hg
    simp
  | cons g₀ rest ih =>
    obtain ⟨k₀, l⟩ := g₀
    intro g hg
    by_cases hk : k₀ = k
    · subst hk
      rw [show insertGroup ((k₀, l) :: rest) k₀ i = (k₀, l ++ [i]) :: rest by
        simp [insertGroup]] at hg
      rcases List.mem_cons.mp hg with hg | hg
      · subst hg
        simp
      · exact h g (List.mem_cons_of_mem _ hg)
    · rw [show insertGroup ((k₀, l) :: rest) k i = (k₀, l) :: insertGroup rest k i by
        simp [insertGroup, hk]] at hg
      rcases List.mem_cons.mp hg with hg | hg
      · subst hg
        exact h _ (List.mem_cons_self _ _)
      · exact ih (fun g₁ hg₁ => h g₁ (List.mem_cons_of_mem _ hg₁)) g hg

lemma insertGroup_countAll (gs : List (String × List Nat)) (k : String) (i j : Nat) :
    countAll i (insertGroup gs k j) = countAll i gs + (if j = i then 1 else 0) := by
  induction gs with
  | nil =>
    by_cases hj : j = i
    · subst hj
      simp [insertGroup, countAll]
    · have hbeq : (i == j) = false := beq_eq_false_iff_ne.mpr (Ne.symm hj)
      simp [insertGroup, countAll, List.count_cons, hbeq, hj]
  | cons g rest ih =>
    obtain ⟨k₀, l⟩ := g
    by_cases hk : k₀ = k
    · subst hk
      rw [show insertGroup ((k₀, l) :: rest) k₀ j = (k₀, l ++ [j]) :: rest by
        simp [insertGroup]]
      by_cases hj : j = i
      · subst hj
        simp [countAll, List.count_append]
        omega
      · have hbeq : (i == j) = false := beq_eq_false_iff_ne.mpr (Ne.symm hj)
        simp [countAll, List.count_append, List.count_cons, hbeq, hj]
    · rw [show insertGroup ((k₀, l) :: rest) k j = (k₀, l) :: insertGroup rest k j by
        simp [insertGroup, hk]]
      simp only [countAll, List.map_cons, List.sum_cons] at ih ⊢
      omega

lemma groupStep_split (r : PricedRec) :
    ((∀ gs, groupStep gs r = gs) ∧
      (∀ k rs, successIds k (r :: rs) = successIds k rs) ∧
      (∀ i rs, countSuccess i (r :: rs) = countSuccess i rs)) ∨
    (∃ i k₀, r.price_id = some (i + 1) ∧ groupKeyOf r.price.name = some k₀ ∧
      (∀ gs, groupStep gs r = insertGroup gs k₀ (i + 1)) ∧
      (∀ k rs, successIds k (r :: rs) =
        if k₀ = k then (i + 1) :: successIds k rs else successIds k rs) ∧
      (∀ i₁ rs, countSuccess i₁ (r :: rs) =
        countSuccess i₁ rs + if i + 1 = i₁ then 1 else 0)) := by
  rcases hp : r.price_id with - | i
  · left
    refine ⟨fun gs => by simp [groupStep, hp], fun k rs => by
      simp [successIds, List.filterMap_cons, hp], fun i rs => by
      simp [countSuccess, List.countP_cons, hp]⟩
  · cases i with
    | zero =>
      left
      refine ⟨fun gs => by simp [groupStep, hp], fun k rs => by
        simp [successIds, List.filterMap_cons, hp], fun i rs => by
        simp [countSuccess, List.countP_cons, hp]⟩
    | succ i₀ =>
      rcases hq : groupKeyOf r.price.name with - | k₀
      · left
        refine ⟨fun gs => by simp [groupStep, hp, hq], fun k rs => by
          simp [successIds, List.filterMap_cons, hp, hq], fun i rs => by
          simp [countSuccess, List.countP_cons, hp, hq]⟩
      · right
        refine ⟨i₀, k₀, rfl, rfl, fun gs => by simp [groupStep, hp, hq], ?_, ?_⟩
        · intro k rs
          by_cases hk : k₀ = k
          · subst hk
            simp [successIds, List.filterMap_cons, hp, hq]
          · simp [successIds, List.filterMap_cons, hp, hq, hk]
        · intro i₁ rs
          by_cases hi : i₀ + 1 = i₁
          · subst hi
            simp [countSuccess, List.countP_cons, hp, hq]
          · have hbeq : (i₀ + 1 == i₁) = false := beq_eq_false_iff_ne.mpr hi
            simp [countSuccess, List.countP_cons, hp, hq, hbeq, hi]

lemma foldl_groupStep_lookup (k : String) :
    ∀ (rs : List PricedRec) (gs : List (String × List Nat)),
      lookupGroup k (rs.foldl groupStep gs) =
        (match lookupGroup k gs with
         | some l => some (l ++ successIds k rs)
         | none => if successIds k rs = [] then none else some (successIds k rs)) := by
  intro rs
  induction rs with
  | nil =>
    intro gs
    cases hl : lookupGroup k gs <;> simp [successIds, hl]
  | cons r rs ih =>
    intro gs
    rw [List.foldl_cons]
    rcases groupStep_split r with ⟨h1, h2, _⟩ | ⟨i, k₀, hp, hq, h1, h2, _⟩
    · rw [h1, h2, ih]
    · rw [h1, h2, ih]
      by_cases hk : k₀ = k
      · subst hk
        simp only [eq_self_iff_true, if_true]
        rw [lookupGroup_insertGroup_self]
        cases hl : lookupGroup k₀ gs with
        | none => simp [hl]
        | some l => simp [hl]
      · rw [if_neg hk, lookupGroup_insertGroup_other gs k₀ k (i + 1) (Ne.symm hk)]

lemma foldl_groupStep_nodup :
    ∀ (rs : List PricedRec) (gs : List (String × List Nat)),
      (gs.map Prod.fst).Nodup → ((rs.foldl groupStep gs).map Prod.fst).Nodup := by
  intro rs
  induction rs with
  | nil => intro gs h; simpa using h
  | cons r rs ih =>
    intro gs h
    rw [List.foldl_cons]
    rcases groupStep_split r with ⟨h1, _, _⟩ | ⟨i, k₀, hp, hq, h1, _, _⟩
    · rw [h1]
      exact ih gs h
    · rw [h1]
      exact ih _ (insertGroup_nodup gs k₀ (i + 1) h)

lemma foldl_groupStep_nonempty :
    ∀ (rs : List PricedRec) (gs : List (String × List Nat)),
      (∀ g ∈ gs, g.2 ≠ []) → ∀ g ∈ rs.foldl groupStep gs, g.2 ≠ [] := by
  intro rs
  induction rs with
  | nil => intro gs h; simpa using h
  | cons r rs ih =>
    intro gs h
    rw [List.foldl_cons]
    rcases groupStep_split r with ⟨h1, _, _⟩ | ⟨i, k₀, hp, hq, h1, _, _⟩
    · rw [h1]
      exact ih gs h
    · rw [h1]
      exact ih _ (insertGroup_nonempty gs k₀ (i + 1) h)

lemma foldl_groupStep_countAll (i : Nat) :
    ∀ (rs : List PricedRec) (gs : List (String × List Nat)),
      countAll i (rs.foldl groupStep gs) = countAll i gs + countSuccess i rs := by
  intro rs
  induction rs with
  | nil =>
    intro gs
    simp [countSuccess]
  | cons r rs ih =>
    intro gs
    rw [List.foldl_cons]
    rcases groupStep_split r with ⟨h1, _, h3⟩ | ⟨j, k₀, hp, hq, h1, _, h3⟩
    · rw [h1, h3, ih]
    · rw [h1, h3, ih, insertGroup_countAll]
      omega

/-- C1: normalize-then-upsert idempotence.  For any raw Azure item and any
destination catalog in which the item's code is not yet present (and whose id
counter is fresh), normalizing yields the same code on both runs, the first
`create_or_update_price` creates, the second finds the record by exact code
lookup, updates it in place preserving its destination id (outcome `updated`,
never `created`), and exactly one destination record with that code remains. -/
theorem claim_C1 (pfx : String) (item : AzureItem) (cat : Catalog)
    (hid : ∀ r ∈ cat.records, r.id < cat.next_id)
    (hcount : countCode cat (convert_azure_to_morpheus_price pfx item).code = 0) :
    (convert_azure_to_morpheus_price pfx item).code =
      (convert_azure_to_morpheus_price pfx item).code ∧
    (create_or_update_price cat (convert_azure_to_morpheus_price pfx item)).2.1 =
      UpsertOutcome.created ∧
    (create_or_update_price
        (create_or_update_price cat (convert_azure_to_morpheus_price pfx item)).1
        (convert_azure_to_morpheus_price pfx item)).2.1 = UpsertOutcome.updated ∧
    (create_or_update_price
        (create_or_update_price cat (convert_azure_to_morpheus_price pfx item)).1
        (convert_azure_to_morpheus_price pfx item)).2.2 =
      (create_or_update_price cat (convert_azure_to_morpheus_price pfx item)).2.2 ∧
    countCode
      (create_or_update_price
        (create_or_update_price cat (convert_azure_to_morpheus_price pfx item)).1
        (convert_azure_to_morpheus_price pfx item)).1
      (convert_azure_to_morpheus_price pfx item).code = 1 := by
  set d := convert_azure_to_morpheus_price pfx item with hd
  have hnomatch : ∀ x ∈ cat.records, ¬ ((fun r => r.code == d.code) x = true) := by
    intro x hx
    exact (List.countP_eq_zero.mp hcount) x hx
  have hfind : List.find? (fun r => r.code == d.code) cat.records = none :=
    List.find?_eq_none.mpr hnomatch
  have hsearch : search_price_by_code cat d.code = none := by
    rw [search_price_by_code, hfind]
  have h1 : create_or_update_price cat d =
      ({ records := cat.records ++ [⟨d.code, cat.next_id, d⟩], next_id := cat.next_id + 1 },
        UpsertOutcome.created, cat.next_id) := by
    rw [create_or_update_price, hsearch]
  have hsearch2 :
      search_price_by_code
        { records := cat.records ++ [⟨d.code, cat.next_id, d⟩],
          next_id := cat.next_id + 1 } d.code = some ⟨d.code, cat.next_id, d⟩ := by
    rw [search_price_by_code]
    dsimp only
    rw [List.find?_append, hfind]
    simp
  have hmap : (cat.records ++ [(⟨d.code, cat.next_id, d⟩ : CatRecord)]).map
      (fun s => if s.id == cat.next_id then (⟨d.code, s.id, d⟩ : CatRecord) else s) =
      cat.records ++ [⟨d.code, cat.next_id, d⟩] := by
    rw [List.map_append]
    congr 1
    · have hcong : cat.records.map
          (fun s => if s.id == cat.next_id then (⟨d.code, s.id, d⟩ : CatRecord) else s) =
          cat.records.map id :=
        List.map_congr_left (fun r hr => by
          have hne : r.id ≠ cat.next_id := Nat.ne_of_lt (hid r hr)
          simp [hne])
      rw [hcong, List.map_id]
    · simp
  have h2 : create_or_update_price
      ({ records := cat.records ++ [⟨d.code, cat.next_id, d⟩],
         next_id := cat.next_id + 1 } : Catalog) d =
      ({ records := cat.records ++ [⟨d.code, cat.next_id, d⟩],
         next_id := cat.next_id + 1 }, UpsertOutcome.updated, cat.next_id) := by
    rw [create_or_update_price, hsearch2]
    dsimp only
    rw [hmap]
  refine ⟨rfl, ?_, ?_, ?_, ?_⟩
  · rw [h1]
  · rw [h1, h2]
  · rw [h1, h2]
  · rw [h1, h2]
    rw [countCode]
    dsimp only
    rw [List.countP_append]
    rw [show List.countP (fun r => r.code == d.code) cat.records = 0 from hcount]
    simp

/-- C1 witness: the empty catalog and a concrete item. -/
theorem claim_C1_witness :
    (∀ r ∈ (({ records := [], next_id := 1 } : Catalog)).records,
      r.id < ({ records := [], next_id := 1 } : Catalog).next_id) ∧
    countCode { records := [], next_id := 1 }
      (convert_azure_to_morpheus_price "aswath"
        { meterId := "abc123", armRegionName := "eastus" }).code = 0 ∧
    (create_or_update_price
        (create_or_update_price { records := [], next_id := 1 }
          (convert_azure_to_morpheus_price "aswath"
            { meterId := "abc123", armRegionName := "eastus" })).1
        (convert_azure_to_morpheus_price "aswath"
          { meterId := "abc123", armRegionName := "eastus" })).2.1 =
      UpsertOutcome.updated := by
  refine ⟨by simp, by decide, ?_⟩
  exact (claim_C1 "aswath" { meterId := "abc123", armRegionName := "eastus" }
    { records := [], next_id := 1 } (by simp) (by decide)).2.2.1

/-- C2: the priceKind classification is total and deterministic (it is a
function into the listed kind strings), evaluated in fixed precedence order:
a "windows" platform marker in the product text wins over storage/disk/blob/
file family markers in the service text, which win over the ram/memory and
core/cpu/vcpu resource-type markers in the meter text (only consulted for the
"Virtual Machines" service), with an unconditional default of compute; the
normalizer `convert_azure_to_morpheus_price` is a total function and always
produces one of the kinds, and the GCP classifier is likewise total. -/
theorem claim_C2 (s m p : String) :
    (get_price_type s m p = "platform" ∨ get_price_type s m p = "storage" ∨
      get_price_type s m p = "memory" ∨ get_price_type s m p = "cores" ∨
      get_price_type s m p = "compute") ∧
    (strContains (lowerStr p) "windows" = true → get_price_type s m p = "platform") ∧
    (strContains (lowerStr p) "windows" = false →
      (strContains (lowerStr s) "storage" || strContains (lowerStr s) "disk" ||
        strContains (lowerStr s) "blob" || strContains (lowerStr s) "file") = true →
      get_price_type s m p = "storage") ∧
    (strContains (lowerStr p) "windows" = false →
      (strContains (lowerStr s) "storage" || strContains (lowerStr s) "disk" ||
        strContains (lowerStr s) "blob" || strContains (lowerStr s) "file") = false →
      s = "Virtual Machines" →
      (strContains (lowerStr m) "ram" || strContains (lowerStr m) "memory") = true →
      get_price_type s m p = "memory") ∧
    (strContains (lowerStr p) "windows" = false →
      (strContains (lowerStr s) "storage" || strContains (lowerStr s) "disk" ||
        strContains (lowerStr s) "blob" || strContains (lowerStr s) "file") = false →
      s = "Virtual Machines" →
      (strContains (lowerStr m) "ram" || strContains (lowerStr m) "memory") = false →
      (strContains (lowerStr m) "core" || strContains (lowerStr m) "cpu" ||
        strContains (lowerStr m) "vcpu") = true →
      get_price_type s m p = "cores") ∧
    (strContains (lowerStr p) "windows" = false →
      (strContains (lowerStr s) "storage" || strContains (lowerStr s) "disk" ||
        strContains (lowerStr s) "blob" || strContains (lowerStr s) "file") = false →
      ¬ s = "Virtual Machines" →
      get_price_type s m p = "compute") ∧
    (∀ (pfx : String) (it : AzureItem),
      (convert_azure_to_morpheus_price pfx it).priceType = "platform" ∨
      (convert_azure_to_morpheus_price pfx it).priceType = "storage" ∨
      (convert_azure_to_morpheus_price pfx it).priceType = "memory" ∨
      (convert_azure_to_morpheus_price pfx it).priceType = "cores" ∨
      (convert_azure_to_morpheus_price pfx it).priceType = "compute") ∧
    (∀ rg rf : String,
      gcp_get_price_type rg rf = "cores" ∨ gcp_get_price_type rg rf = "memory" ∨
      gcp_get_price_type rg rf = "gpu" ∨ gcp_get_price_type rg rf = "compute" ∨
      gcp_get_price_type rg rf = "storage") := by
  refine ⟨get_price_type_cases s m p, ?_, ?_, ?_, ?_, ?_,
    fun pfx it => convert_priceType_cases pfx it,
    fun rg rf => gcp_get_price_type_cases rg rf⟩
  · intro h
    simp [get_price_type, h]
  · intro h1 h2
    simp [get_price_type, h1, h2]
  · intro h1 h2 h3 h4
    subst h3
    simp [get_price_type, h1, h2, h4]
  · intro h1 h2 h3 h4 h5
    subst h3
    simp [get_price_type, h1, h2, h4, h5]
  · intro h1 h2 h3
    by_cases h4 : strContains (lowerStr s) "sql" || strContains (lowerStr s) "database" ||
        strContains (lowerStr s) "mysql" || strContains (lowerStr s) "postgresql" <;>
      simp [get_price_type, h1, h2, h3, h4]

/-- C2 witness: a storage-family service with a cpu meter classifies as
storage (family precedence), at a concrete input. -/
theorem claim_C2_witness :
    strContains (lowerStr "pqr") "windows" = false ∧
    (strContains (lowerStr "Azure Files Storage") "storage" ||
      strContains (lowerStr "Azure Files Storage") "disk" ||
      strContains (lowerStr "Azure Files Storage") "blob" ||
      strContains (lowerStr "Azure Files Storage") "file") = true ∧
    get_price_type "Azure Files Storage" "cpu meter" "pqr" = "storage" :=
  ⟨by decide, by decide,
    (claim_C2 "Azure Files Storage" "cpu meter" "pqr").2.2.1 (by decide) (by decide)⟩

/-- C3 counterexample: a source whose first page succeeds with two items and
whose second page request fails: the Azure fetch returns the two items — a
non-empty partial result — so fetch is not all-or-nothing as claimed. -/
theorem claim_C3_counterexample :
    (fetch_paginated_data (listSource [[(0 : Nat), 1]]) 30).1 = [0, 1] ∧
    ([(0 : Nat), 1] : List Nat) ≠ [] := by
  exact ⟨by decide, by decide⟩

/-- C3 (amended): when a page request fails, the GCP `get_all_skus` raises,
discarding every previously fetched page (all-or-nothing), while the Azure
`_fetch_paginated_data` breaks out of the loop and returns the items of the
pages already fetched (a partial result is surfaced). -/
theorem claim_C3 (good : List (List Nat)) (skuPages : List (List GCPSku))
    (region : String) (max_pages : Nat) :
    (good.length < max_pages →
      fetch_paginated_data (listSource good) max_pages =
        (good.flatten, good.length + 1)) ∧
    (skuPages.length < max_pages →
      get_all_skus (listSource skuPages) region max_pages = Except.error ()) := by
  constructor
  · intro h
    rw [fetch_paginated_data, fetchAux_listSource good max_pages [] h]
    simp
  · intro h
    rw [get_all_skus, gcpFetchAux_listSource_error skuPages _ max_pages [] h]

/-- C3 witness: one good page then a failing page, within the page limit. -/
theorem claim_C3_witness :
    (([[(0 : Nat), 1]] : List (List Nat)).length < 30 ∧
      fetch_paginated_data (listSource ([[(0 : Nat), 1]] : List (List Nat))) 30 =
        ([0, 1], 2)) ∧
    (([([] : List GCPSku)]).length < 30 ∧
      get_all_skus (listSource [([] : List GCPSku)]) "asia-southeast1" 30 =
        Except.error ()) := by
  refine ⟨⟨by decide, ?_⟩, by decide, ?_⟩
  · have h := (claim_C3 ([[(0 : Nat), 1]] : List (List Nat)) [([] : List GCPSku)]
      "asia-southeast1" 30).1 (by decide)
    simpa using h
  · exact (claim_C3 ([[(0 : Nat), 1]] : List (List Nat)) [([] : List GCPSku)]
      "asia-southeast1" 30).2 (by decide)

/-- C4 counterexample: the GCP `_make_request` with `max_retries = 3` and
`retry_delay = 1` sleeps `[1, 1]`, not the linear `[1, 2]` the claim requires;
and a failing Azure page request is issued exactly once — page fetches are not
retried at all, so the "exactly maxRetries attempts" part also fails. -/
theorem claim_C4_counterexample :
    (make_request_gcp (fun _ => false) 3 1).2.2 = [(1 : ℚ), 1] ∧
    (make_request_gcp (fun _ => false) 3 1).2.2 ≠ [(1 : ℚ), 2] ∧
    (fetch_paginated_data (fun _ => (PageResult.err : PageResult Nat)) 30).2 = 1 ∧
    (1 : Nat) ≠ 3 := by
  refine ⟨by decide, by decide, by decide, by decide⟩

/-- C4 (amended): an upsert request (`MorpheusClient._make_request`) that
fails on every attempt makes exactly `max_retries` attempts before the failure
is surfaced; in the Azure script the delay before the n-th retry is
`base_delay * n` (linear backoff), while in the GCP script every retry sleeps
the constant `retry_delay`. -/
theorem claim_C4 (max_retries : Nat) (base_delay retry_delay : ℚ)
    (respond : Nat → Bool) (h : 1 ≤ max_retries) (hfail : ∀ n, respond n = false) :
    ((make_request_azure respond max_retries base_delay).2.1 = max_retries ∧
      (make_request_azure respond max_retries base_delay).2.2 =
        (List.range' 1 (max_retries - 1)).map (fun n => base_delay * ((n : Nat) : ℚ))) ∧
    ((make_request_gcp respond max_retries retry_delay).2.1 = max_retries ∧
      (make_request_gcp respond max_retries retry_delay).2.2 =
        List.replicate (max_retries - 1) retry_delay) := by
  rw [make_request_azure, make_request_gcp,
    azureRequestAux_allFail respond base_delay hfail max_retries 0 h,
    gcpRequestAux_allFail respond retry_delay hfail max_retries 0 h]
  exact ⟨⟨rfl, rfl⟩, rfl, rfl⟩

/-- C4 witness: three attempts, every one failing. -/
theorem claim_C4_witness :
    (1 : Nat) ≤ 3 ∧
    (((make_request_azure (fun _ => false) 3 (1/2)).2.1 = 3 ∧
      (make_request_azure (fun _ => false) 3 (1/2)).2.2 =
        (List.range' 1 (3 - 1)).map (fun n => (1/2 : ℚ) * ((n : Nat) : ℚ))) ∧
     ((make_request_gcp (fun _ => false) 3 1).2.1 = 3 ∧
      (make_request_gcp (fun _ => false) 3 1).2.2 = List.replicate (3 - 1) (1 : ℚ))) :=
  ⟨by decide, claim_C4 3 (1/2) 1 (fun _ => false) (by decide) (fun n => rfl)⟩

/-- C5: pagination completeness.  For a well-terminated source of `P`
non-empty-cursor pages, the Azure fetch returns exactly the concatenation of
all pages (and issues `P` requests) whenever `max_pages ≥ P`; for any source
whose pages each carry at most `page_size` items the result never exceeds
`max_pages * page_size` items; and the GCP fetch likewise returns exactly the
(region-valid) items of all pages.  Termination is inherent: the loop is
bounded by the page limit and the cursor. -/
theorem claim_C5 (good : List (List Nat)) (good₂ : List (List GCPSku))
    (region : String) (max_pages page_size : Nat) :
    (good ≠ [] → good.length ≤ max_pages →
      (fetch_paginated_data (listSourceEnd good) max_pages).1 = good.flatten ∧
      (fetch_paginated_data (listSourceEnd good) max_pages).2 = good.length) ∧
    ((∀ p ∈ good, p.length ≤ page_size) →
      (fetch_paginated_data (listSourceEnd good) max_pages).1.length ≤
        max_pages * page_size) ∧
    ((∀ sku ∈ good₂.flatten, is_valid_sku sku region = true) → good₂ ≠ [] →
      good₂.length ≤ max_pages →
      get_all_skus (listSourceEnd good₂) region max_pages = Except.ok good₂.flatten) := by
  refine ⟨?_, ?_, ?_⟩
  · intro hne hle
    rw [fetch_paginated_data, fetchAux_listSourceEnd good max_pages [] hne hle]
    simp
  · intro hp
    have hmain := fetchAux_length_le page_size max_pages (listSourceEnd good) []
      (fun n its next hh => by
        simp only [listSourceEnd] at hh
        cases hg : good[n]? with
        | none => rw [hg] at hh; cases hh
        | some l =>
          rw [hg] at hh
          injection hh with h1 h2
          subst h1
          exact hp _ (List.getElem?_mem hg))
    simpa using hmain
  · intro hv hne hle
    rw [get_all_skus, gcpFetchAux_listSourceEnd good₂ _ max_pages [] hne hle]
    have hmap : good₂.map (fun p => p.filter (fun sku => is_valid_sku sku region)) =
        good₂.map id :=
      List.map_congr_left (fun p hp2 =>
        List.filter_eq_self.mpr (fun a ha => hv a (List.mem_flatten_of_mem hp2 ha)))
    rw [hmap, List.map_id]
    simp


/-- C5 witness: two pages of one and two items, limit 30, page size 2. -/
theorem claim_C5_witness :
    (([[10], [20, 30]] : List (List Nat)) ≠ [] ∧
      ([[10], [20, 30]] : List (List Nat)).length ≤ 30 ∧
      (∀ p ∈ ([[10], [20, 30]] : List (List Nat)), p.length ≤ 2)) ∧
    ((fetch_paginated_data (listSourceEnd ([[10], [20, 30]] : List (List Nat))) 30).1 =
        ([[10], [20, 30]] : List (List Nat)).flatten ∧
      (fetch_paginated_data (listSourceEnd ([[10], [20, 30]] : List (List Nat))) 30).2 =
        ([[10], [20, 30]] : List (List Nat)).length) ∧
    (fetch_paginated_data (listSourceEnd ([[10], [20, 30]] : List (List Nat))) 30).1.length ≤
      30 * 2 ∧
    get_all_skus (listSourceEnd [([] : List GCPSku)]) "asia-southeast1" 30 =
      Except.ok ([([] : List GCPSku)]).flatten := by
  refine ⟨⟨by decide, by decide, by decide⟩, ?_, ?_, ?_⟩
  · exact (claim_C5 ([[10], [20, 30]] : List (List Nat)) [([] : List GCPSku)]
      "asia-southeast1" 30 2).1 (by decide) (by decide)
  · exact (claim_C5 ([[10], [20, 30]] : List (List Nat)) [([] : List GCPSku)]
      "asia-southeast1" 30 2).2.1 (by decide)
  · exact (claim_C5 ([[10], [20, 30]] : List (List Nat)) [([] : List GCPSku)]
      "asia-southeast1" 30 2).2.2 (by decide) (by decide) (by decide)

/-- C6: grouping correctness.  The group carrying key `k` holds exactly the
destination ids of the successfully reconciled records whose name derives key
`k`, in insertion order, and exists exactly when there is at least one such
record; group keys are pairwise distinct, no group is empty, and the total
number of occurrences of an id across all groups equals the number of
surviving records carrying it — so every successful record lands in exactly
one group, records with falsy ids are excluded before grouping, and a key with
zero successes produces no group. -/
theorem claim_C6 (rs : List PricedRec) :
    (∀ k, lookupGroup k (group_prices_for_price_sets rs) =
      (if successIds k rs = [] then none else some (successIds k rs))) ∧
    ((group_prices_for_price_sets rs).map Prod.fst).Nodup ∧
    (∀ g ∈ group_prices_for_price_sets rs, g.2 ≠ []) ∧
    (∀ i, countAll i (group_prices_for_price_sets rs) = countSuccess i rs) := by
  refine ⟨?_, ?_, ?_, ?_⟩
  · intro k
    rw [group_prices_for_price_sets, foldl_groupStep_lookup k rs []]
    simp [lookupGroup]
  · rw [group_prices_for_price_sets]
    exact foldl_groupStep_nodup rs [] (by simp)
  · rw [group_prices_for_price_sets]
    exact foldl_groupStep_nonempty rs [] (by simp)
  · intro i
    rw [group_prices_for_price_sets, foldl_groupStep_countAll i rs []]
    simp [countAll]

/-- C7 counterexample: a GCP SKU of the Storage resource family whose usage
unit text contains "month" is still normalized with `priceUnit = "hour"`,
contradicting the claim that every storage record with a monthly
unit-of-measure gets `unit = month`. -/
theorem claim_C7_counterexample :
    (create_price_data
      { skuId := "1234-5678", description := "SSD backed PD Capacity",
        category := { resourceFamily := "Storage", resourceGroup := "SSD" },
        pricingExpressions := [{ usageUnit := "GiBy.month" }] }
      "asia-southeast1" "Aswath").priceType = "storage" ∧
    strContains (lowerStr "GiBy.month") "month" = true ∧
    (create_price_data
      { skuId := "1234-5678", description := "SSD backed PD Capacity",
        category := { resourceFamily := "Storage", resourceGroup := "SSD" },
        pricingExpressions := [{ usageUnit := "GiBy.month" }] }
      "asia-southeast1" "Aswath").priceUnit = "hour" ∧
    ("hour" : String) ≠ "month" := by
  refine ⟨by decide, by decide, by decide, by decide⟩

/-- C7 (amended): in the Azure pipeline the price unit is `hour` except for
storage-kind records whose unit-of-measure text contains "month" (then
`month`), and the Premium SSD scenario normalizes to storage/month; the GCP
`create_price_data`, however, always emits `priceUnit = "hour"`, ignoring the
SKU's unit-of-measure text. -/
theorem claim_C7 (pfx : String) (it : AzureItem) (sku : GCPSku) (region pfx₂ : String) :
    ((convert_azure_to_morpheus_price pfx it).priceUnit =
      (if (convert_azure_to_morpheus_price pfx it).priceType = "storage" ∧
          strContains (lowerStr it.unitOfMeasure) "month" = true
       then "month" else "hour")) ∧
    ((convert_azure_to_morpheus_price "aswath"
      { serviceName := "Storage", meterName := "Premium SSD", unitOfMeasure := "1/Month",
        retailPrice := (0.12 : ℚ) }).priceType = "storage" ∧
     (convert_azure_to_morpheus_price "aswath"
      { serviceName := "Storage", meterName := "Premium SSD", unitOfMeasure := "1/Month",
        retailPrice := (0.12 : ℚ) }).priceUnit = "month") ∧
    (create_price_data sku region pfx₂).priceUnit = "hour" := by
  refine ⟨?_, ⟨by decide, by decide⟩, rfl⟩
  exact get_price_unit_eq it.unitOfMeasure _

/-- C8: the raw item {service: "Virtual Machines", meter: "D2s v3 Windows",
location: "eastus", retailPrice: 0.192} normalizes to priceKind `platform`,
platform `windows` and unit `hour`. -/
theorem claim_C8 :
    (convert_azure_to_morpheus_price "aswath"
      { serviceName := "Virtual Machines", meterName := "D2s v3 Windows",
        location := "eastus", retailPrice := (0.192 : ℚ) }).priceType = "platform" ∧
    (convert_azure_to_morpheus_price "aswath"
      { serviceName := "Virtual Machines", meterName := "D2s v3 Windows",
        location := "eastus", retailPrice := (0.192 : ℚ) }).platform = some "windows" ∧
    (convert_azure_to_morpheus_price "aswath"
      { serviceName := "Virtual Machines", meterName := "D2s v3 Windows",
        location := "eastus", retailPrice := (0.192 : ℚ) }).priceUnit = "hour" := by
  refine ⟨by decide, by decide, by decide⟩

/-- C9 counterexample: a run that fetches one item whose upsert fails is
reported failed (`ok = false`) even though source data was retrieved, so
"fatal only when no source data at all could be retrieved" is false. -/
theorem claim_C9_counterexample :
    (sync_azure_pricing "aswath" [{}] (fun _ => none) (fun _ => true)).items_fetched = 1 ∧
    (sync_azure_pricing "aswath" [{}] (fun _ => none) (fun _ => true)).ok = false := by
  exact ⟨by decide, by decide⟩

/-- C9 (amended): the orchestrator always returns a summary whose fetched
count is the number of items, whose succeeded and failed counts partition the
items, and whose outcome is successful exactly when at least one price was
created or updated — so a run with zero fetched items is fatal, a run whose
upserts all fail is also reported failed, and a non-zero failure count
alongside at least one success is not fatal. -/
theorem claim_C9 (pfx : String) (items : List AzureItem) (upsert : Nat → Option Nat)
    (create_set : String → Bool) :
    (sync_azure_pricing pfx items upsert create_set).items_fetched = items.length ∧
    (sync_azure_pricing pfx items upsert create_set).prices_succeeded +
      (sync_azure_pricing pfx items upsert create_set).prices_failed = items.length ∧
    (sync_azure_pricing pfx items upsert create_set).ok =
      decide (0 < (sync_azure_pricing pfx items upsert create_set).prices_succeeded) := by
  by_cases hi : items.isEmpty
  · have : items = [] := List.isEmpty_iff.mp hi
    subst this
    refine ⟨rfl, rfl, rfl⟩
  · rw [sync_azure_pricing]
    rw [if_neg hi]
    dsimp only
    refine ⟨rfl, ?_, rfl⟩
    have hlen : (items.enum.map
        (fun p => (convert_azure_to_morpheus_price pfx p.2, upsert p.1))).length =
        items.length := by
      simp
    have hle : (List.filterMap (fun p =>
        match p.2 with
        | some (i + 1) => some (⟨p.1, some (i + 1)⟩ : PricedRec)
        | _ => none)
        (items.enum.map (fun p => (convert_azure_to_morpheus_price pfx p.2, upsert p.1)))).length ≤
        (items.enum.map (fun p => (convert_azure_to_morpheus_price pfx p.2, upsert p.1))).length :=
      List.length_filterMap_le _ _
    omega

/-- C10: a converted Azure record has `additionalPriceUnit = some "GB"`
exactly when its price type is storage (and `none` otherwise), and a volume
type is attached exactly when the price type is storage — the volume-type
derivation returns a value in every branch. -/
theorem claim_C10 (pfx : String) (it : AzureItem) :
    ((convert_azure_to_morpheus_price pfx it).additionalPriceUnit = some "GB" ↔
      (convert_azure_to_morpheus_price pfx it).priceType = "storage") ∧
    ((convert_azure_to_morpheus_price pfx it).additionalPriceUnit = none ↔
      ¬ (convert_azure_to_morpheus_price pfx it).priceType = "storage") ∧
    ((convert_azure_to_morpheus_price pfx it).volumeType.isSome = true ↔
      (convert_azure_to_morpheus_price pfx it).priceType = "storage") := by
  unfold convert_azure_to_morpheus_price
  dsimp only
  by_cases h :
      (if get_platform it.productName it.meterName = some "windows" ∧
          get_price_type it.serviceName it.meterName it.productName = "compute"
        then "platform"
        else get_price_type it.serviceName it.meterName it.productName) = "storage" <;>
    simp [h, get_volume_type_isSome]

end PricingSync
